import Mathlib

/-!
Verification development for the CPUsim repository: a bytecode compiler
(src/Compiler.py, with the lexical layer in src/Lex.py and src/TokenCodes.py)
and a virtual CPU (src/CPU.py).

The Python source is shallowly embedded as follows.

Compiler side (src/Compiler.py): `dec_to_bin` is the numeric-to-binary
conversion; its loop runs on Python integers, on which `decimal /= 2` is
integer halving, so the loop is modelled with integer division.
`Compiler.variable` maintains the symbol table, modelled as an insertion
ordered association list (one entry per distinct name, matching the dict).
`Compiler.comp` processes one assembly line at a time; a line is modelled as
its whitespace-split token list (the output of Python `line.split()`), and the
per-line body is `compLine` over an explicit `CompState`.  A Python exception
escaping `comp` (KeyError on an unknown operator, IndexError on a missing
token) aborts compilation, which is modelled by `Option`: `none` is the fatal
encoding error.

CPU side (src/CPU.py): machine values (data memory cells and the AC/ECX
registers) are modelled as rationals (Python numbers).  The source runs under
Python 2 (the `decimal /= 2` of `dec_to_bin` halves integers only there), so
the `/` of `CPU.div` applied to two integer machine values is floor division;
`div` accordingly floor-divides when both resolved values are integers — the
only case a run of this program produces — and falls back to true division
otherwise, exactly as the Python 2 `/` dispatches.  `mov`, `add`, `sub`,
`mul`, `div`,
`jump`, `get_data` and `execute` follow the source line by line, with `none`
modelling an uncaught runtime exception (IndexError from list indexing or
assignment, ValueError from `int(s, 2)` on a non-bit string, ZeroDivisionError
from a zero divisor).  Python list assignment `l[i] = v` (which wraps a
negative index by the list length and raises IndexError when still out of
range) is modelled by `pySetItem`.  An operand flowing into `mov`/`get_data`
is either a bit-string field of the instruction register or an already
computed number (the arithmetic operators pass numbers); this is the
`Operand` type, mirroring the dynamic `type(operand) == str` test in
`get_data`.
-/

namespace CPUsim

/-! ### Bit strings and Python integer parsing -/

/-- A binary digit character. -/
def isBit (c : Char) : Bool := c == '0' || c == '1'

/-- Numeric value of a binary digit character. -/
def bitVal (c : Char) : ℕ := if c = '1' then 1 else 0

/-- Value of a bit string read in base 2, as Python `int(s, 2)` computes it
on a well-formed input. -/
def binToNat (s : String) : ℕ :=
  s.data.foldl (fun a c => 2 * a + bitVal c) 0

/-- Model of Python `int(s, 2)`: `none` is the ValueError raised on an empty
string or on a character that is not a binary digit. -/
def int2? (s : String) : Option ℕ :=
  if s.data = [] then none
  else if s.data.all isBit then some (binToNat s) else none

/-- A decimal digit character. -/
def isDigitCh (c : Char) : Bool := '0' ≤ c && c ≤ '9'

/-- Value of a decimal digit list. -/
def digitsVal (l : List Char) : ℕ :=
  l.foldl (fun a c => 10 * a + (c.toNat - 48)) 0

/-- Model of Python `int(s)` on a whitespace-split token: an optional sign
followed by decimal digits; `none` is the ValueError on anything else. -/
def pyInt? (s : String) : Option ℤ :=
  match s.data with
  | [] => none
  | '-' :: rest =>
      if rest ≠ [] ∧ rest.all isDigitCh then some (-(digitsVal rest : ℤ)) else none
  | '+' :: rest =>
      if rest ≠ [] ∧ rest.all isDigitCh then some ((digitsVal rest : ℤ)) else none
  | l => if l.all isDigitCh then some ((digitsVal l : ℤ)) else none

/-! ### src/Compiler.py : dec_to_bin -/

/-- The `while decimal > 0` loop of `dec_to_bin`: prepend `decimal % 2` and
halve, until the value is no longer positive. -/
def dtbLoop (d : ℤ) (s : String) : String :=
  if 0 < d then dtbLoop (d / 2) ((if d % 2 = 1 then "1" else "0") ++ s) else s
termination_by d.toNat
decreasing_by omega

/-- Model of `dec_to_bin(decimal, length)` from src/Compiler.py: build the
binary string by repeated halving, then left-pad with zero characters when the
string is shorter than `length`; otherwise return the oversized string
unchanged. -/
def dec_to_bin (decimal : ℤ) (length : ℕ) : String :=
  let string := dtbLoop decimal ""
  if string.length < length then
    ⟨List.replicate (length - string.length) '0' ++ string.data⟩
  else string

/-! ### src/Compiler.py : operator and register tables, symbol table -/

/-- The `operators` dict of src/Compiler.py. -/
def operators : List (String × String) :=
  [( "MOV", "0000"), ( "ADD", "0001"), ( "SUB", "0010"),
   ( "MUL", "0011"), ( "DIV", "0100"), ( "JMP", "0101")]

/-- The `registers` dict of src/Compiler.py. -/
def registers : List (String × String) :=
  [( "AC", "1111111111111110"), ( "ECX", "1111111111111111")]

/-- Python `max(d.values())` over the symbol table (the table is nonempty
whenever the source calls it, and its values are naturals, so a fold of `max`
from 0 computes the same maximum). -/
def maxVals (l : List (String × ℕ)) : ℕ :=
  (l.map Prod.snd).foldl max 0

/-- Model of `Compiler.variable(var)`: if the table is empty the name gets
address `2 ^ 15`; a new name gets `max(values) + 1`; an existing name keeps
its address.  Returns the updated table together with the emitted 16-bit
binary encoding of the name's address. -/
def compVariable (vars : List (String × ℕ)) (var : String) :
    List (String × ℕ) × String :=
  let vars' :=
    if vars.length = 0 then vars ++ [(var, 2 ^ 15)]
    else if (List.lookup var vars).isNone then vars ++ [(var, maxVals vars + 1)]
    else vars
  (vars', dec_to_bin (((List.lookup var vars').getD 0 : ℕ) : ℤ) 16)

/-- The mutable state of `Compiler.comp`: the bytecode accumulated so far, the
emitted-instruction counter, the active loop label, and the symbol table
(`self.variables`). -/
structure CompState where
  bytecode : String
  instr_count : ℕ
  label : ℕ
  vars : List (String × ℕ)
deriving DecidableEq

/-- Python `operator.startswith("label")`. -/
def startsWithLabel (s : String) : Bool :=
  match s.data with
  | 'l' :: 'a' :: 'b' :: 'e' :: 'l' :: _ => true
  | _ => false

/-- One iteration of the loop body of `Compiler.comp`, on the
whitespace-split parts of one assembly line.  `none` models an exception that
aborts encoding: IndexError on a missing token, KeyError on an operator that
is not in the `operators` dict. -/
def compLine (st : CompState) (parts : List String) : Option CompState :=
  match parts with
  | [] => none
  | operator :: rest =>
    if startsWithLabel operator then
      some { st with label := st.instr_count }
    else if operator = "JMP" then
      match List.lookup operator operators with
      | none => none
      | some opc =>
        some { st with
          bytecode := st.bytecode ++ opc ++ dec_to_bin (st.label : ℤ) 16 ++
            dec_to_bin 0 16 ++ "\n",
          instr_count := st.instr_count + 1 }
    else
      match List.lookup operator operators with
      | none => none
      | some opc =>
        match rest with
        | [] => none
        | operand1 :: rest2 =>
          let r1 :=
            match List.lookup operand1 registers with
            | some r => (st.vars, r)
            | none => compVariable st.vars operand1
          match rest2 with
          | [] => none
          | operand2 :: _ =>
            let r2 :=
              match pyInt? operand2 with
              | some z => (r1.1, dec_to_bin z 16)
              | none =>
                match List.lookup operand2 registers with
                | some r => (r1.1, r)
                | none => compVariable r1.1 operand2
            some { st with
              bytecode := st.bytecode ++ opc ++ r1.2 ++ r2.2 ++ "\n",
              instr_count := st.instr_count + 1,
              vars := r2.1 }

/-- The whole of `Compiler.comp`: fold the per-line body over the assembly
lines, starting from empty bytecode, zero counters and an empty symbol
table. -/
def comp (lines : List (List String)) : Option CompState :=
  lines.foldlM compLine ⟨ "", 0, 0, []⟩

/-! ### src/TokenCodes.py and src/Lex.py -/

/-- Token code for constants (src/TokenCodes.py). -/
def CONSTANT : ℕ := 10

/-- Token code for variables (src/TokenCodes.py). -/
def VARIABLE : ℕ := 11

/-- Token code for reserved words (src/TokenCodes.py). -/
def RESERVED_WORD : ℕ := 12

/-- Token code for the assignment operator (src/TokenCodes.py). -/
def ASSIGN_OP : ℕ := 20

/-- Token code for math operators (src/TokenCodes.py). -/
def MATH_OP : ℕ := 21

/-- Token code for semicolons (src/TokenCodes.py). -/
def SEMICOLON : ℕ := 22

/-- A lowercase letter, as the `lowercase` list of src/Lex.py defines it. -/
def isLowerCh (c : Char) : Bool := 'a' ≤ c && c ≤ 'z'

/-- Model of `determine_type` from src/Lex.py: classify a lexeme, `none`
modelling the InvalidLexemeException raised on a lexeme that is neither a
reserved word, an operator sign, a valid variable name (lowercase letter
followed by lowercase letters and digits) nor a valid constant (digits
only). -/
def determine_type (text : String) : Option ℕ :=
  if text = "TO" ∨ text = "DO" ∨ text = "END" then some RESERVED_WORD
  else if text = ":=" then some ASSIGN_OP
  else if text = "+" ∨ text = "-" ∨ text = "*" ∨ text = "/" then some MATH_OP
  else if text = ";" then some SEMICOLON
  else
    match text.data with
    | [] => none
    | c :: rest =>
      if isLowerCh c then
        if rest.all (fun d => isDigitCh d || isLowerCh d) then some VARIABLE
        else none
      else if isDigitCh c then
        if rest.all isDigitCh then some CONSTANT else none
      else none

/-! ### src/CPU.py : machine state and operand values -/

/-- The mutable state of a `CPU` instance: program memory (list of bytecode
lines), data memory (list of machine values), the accumulator, the loop
counter, the program counter and the instruction register. -/
structure CPUState where
  prog_memory : List String
  data_memory : List ℚ
  ac : ℚ
  ecx : ℚ
  pc : ℕ
  ir : String
deriving DecidableEq

/-- An operand as `CPU.get_data` and `CPU.mov` receive it: either a bit-string
field sliced from the instruction register, or a number already computed by an
arithmetic operator (the `type(operand) == str` test in the source). -/
inductive Operand where
  | bits (s : String)
  | num (v : ℚ)
deriving DecidableEq

/-- The identifier dispatch of `CPU.get_data` on a numeric identifier: below
32768 the identifier is its own value; from 32768 below 65534 it addresses
data memory at `ident - 32768` (`none` models the IndexError on a missing
slot and the TypeError on a fractional index); 65534 is the accumulator; any
other value is the loop counter. -/
def get_data_val (st : CPUState) (ident : ℚ) : Option ℚ :=
  if ident < 32768 then some ident
  else if ident < 65534 then
    if ident.den = 1 then st.data_memory.get? (ident.num.toNat - 32768)
    else none
  else if ident = 65534 then some st.ac
  else some st.ecx

/-- Model of `CPU.get_data`: a string operand is first converted with
`int(operand, 2)`, a numeric operand is used as the identifier directly; then
the four-way dispatch of `get_data_val` resolves it. -/
def get_data (st : CPUState) : Operand → Option ℚ
  | .bits s =>
    match int2? s with
    | none => none
    | some n => get_data_val st (n : ℚ)
  | .num v => get_data_val st v

/-- Python list assignment `l[i] = v`: a negative index is wrapped by the list
length; `none` models the IndexError raised when the (wrapped) index is still
out of range. -/
def pySetItem (l : List ℚ) (i : ℤ) (v : ℚ) : Option (List ℚ) :=
  if 0 ≤ i then
    if i < (l.length : ℤ) then some (l.set i.toNat v) else none
  else if 0 ≤ i + (l.length : ℤ) then some (l.set (i + (l.length : ℤ)).toNat v)
  else none

/-- Model of `CPU.mov(operand1, operand2)`: decode the destination from
`operand1`; a destination below 65534 is treated as data memory at index
`ident - 32768` (appending when the list is shorter than `index + 1`,
assigning at the index otherwise); 65534 is the accumulator; anything else is
the loop counter.  The stored value is `get_data(operand2)`. -/
def mov (st : CPUState) (operand1 : String) (operand2 : Operand) :
    Option CPUState :=
  match int2? operand1 with
  | none => none
  | some ident =>
    if ident < 65534 then
      let index : ℤ := (ident : ℤ) - 32768
      match get_data st operand2 with
      | none => none
      | some v =>
        if (st.data_memory.length : ℤ) < index + 1 then
          some { st with data_memory := st.data_memory ++ [v] }
        else
          match pySetItem st.data_memory index v with
          | none => none
          | some dm => some { st with data_memory := dm }
    else if ident = 65534 then
      match get_data st operand2 with
      | none => none
      | some v => some { st with ac := v }
    else
      match get_data st operand2 with
      | none => none
      | some v => some { st with ecx := v }

/-- Model of `CPU.add`: a move to `operand1` whose source value is the sum of
the two resolved operand values. -/
def add (st : CPUState) (operand1 operand2 : String) : Option CPUState :=
  match get_data st (.bits operand1) with
  | none => none
  | some v1 =>
    match get_data st (.bits operand2) with
    | none => none
    | some v2 => mov st operand1 (.num (v1 + v2))

/-- Model of `CPU.sub`: a move to `operand1` whose source value is the
difference of the two resolved operand values. -/
def sub (st : CPUState) (operand1 operand2 : String) : Option CPUState :=
  match get_data st (.bits operand1) with
  | none => none
  | some v1 =>
    match get_data st (.bits operand2) with
    | none => none
    | some v2 => mov st operand1 (.num (v1 - v2))

/-- Model of `CPU.mul`: a move to `operand1` whose source value is the product
of the two resolved operand values. -/
def mul (st : CPUState) (operand1 operand2 : String) : Option CPUState :=
  match get_data st (.bits operand1) with
  | none => none
  | some v1 =>
    match get_data st (.bits operand2) with
    | none => none
    | some v2 => mov st operand1 (.num (v1 * v2))

/-- Model of `CPU.div`: a move to `operand1` whose source value is the
Python 2 quotient of the two resolved operand values — the floor quotient
when both values are integers (the only case arising in this program, whose
machine values are all integers), true division when either is not; `none`
models the ZeroDivisionError on a zero divisor. -/
def div (st : CPUState) (operand1 operand2 : String) : Option CPUState :=
  match get_data st (.bits operand1) with
  | none => none
  | some v1 =>
    match get_data st (.bits operand2) with
    | none => none
    | some v2 =>
      if v2 = 0 then none
      else if v1.den = 1 ∧ v2.den = 1 then
        mov st operand1 (.num ((Int.fdiv v1.num v2.num : ℤ) : ℚ))
      else mov st operand1 (.num (v1 / v2))

/-- Model of `CPU.jump`: set the program counter to the value of the operand
bit string. -/
def jump (st : CPUState) (operand : String) : Option CPUState :=
  match int2? operand with
  | none => none
  | some n => some { st with pc := n }

/-- Model of `CPU.fetch`: load the instruction at the program counter into
the instruction register. -/
def fetch (st : CPUState) : Option CPUState :=
  match st.prog_memory.get? st.pc with
  | none => none
  | some i => some { st with ir := i }

/-- Model of `CPU.execute`: slice the instruction register into the 4-bit
opcode and the two 16-bit operand fields, dispatch on the opcode (the five
defined move/arithmetic codes each run their operator and then advance the
program counter by one), and in the default branch jump to the first operand
when the loop counter is positive, otherwise advance by one. -/
def execute (st : CPUState) : Option CPUState :=
  let operation : String := ⟨st.ir.data.take 4⟩
  let operand1 : String := ⟨((st.ir.data.drop 4).take 16 : List Char)⟩
  let operand2 : String := ⟨st.ir.data.drop 20⟩
  if operation = "0000" then
    match mov st operand1 (.bits operand2) with
    | none => none
    | some s => some { s with pc := s.pc + 1 }
  else if operation = "0001" then
    match add st operand1 operand2 with
    | none => none
    | some s => some { s with pc := s.pc + 1 }
  else if operation = "0010" then
    match sub st operand1 operand2 with
    | none => none
    | some s => some { s with pc := s.pc + 1 }
  else if operation = "0011" then
    match mul st operand1 operand2 with
    | none => none
    | some s => some { s with pc := s.pc + 1 }
  else if operation = "0100" then
    match div st operand1 operand2 with
    | none => none
    | some s => some { s with pc := s.pc + 1 }
  else if 0 < st.ecx then jump st operand1
  else some { st with pc := st.pc + 1 }

/-! ### Lemmas: the dec_to_bin loop -/

/-- The list of binary digit characters of `n`, most significant first;
empty for zero.  This is the list built by the `dec_to_bin` loop. -/
def binDigits (n : ℕ) : List Char :=
  if n = 0 then [] else binDigits (n / 2) ++ [if n % 2 = 1 then '1' else '0']
decreasing_by omega

theorem strData (a b : String) : (a ++ b).data = a.data ++ b.data := by
  cases a
  cases b
  rfl

theorem dtbLoop_ofNat (n : ℕ) : ∀ s : String, dtbLoop (n : ℤ) s = ⟨binDigits n ++ s.data⟩ := by
  induction n using Nat.strong_induction_on with
  | _ n ih =>
    intro s
    rw [dtbLoop, binDigits]
    by_cases h : n = 0
    · subst h
      norm_num
    · rw [if_pos (by omega : (0 : ℤ) < (n : ℤ)), if_neg h]
      have h2 : (n : ℤ) / 2 = ((n / 2 : ℕ) : ℤ) := by omega
      rw [h2, ih (n / 2) (by omega)]
      by_cases hm : n % 2 = 1
      · rw [if_pos (by omega : (n : ℤ) % 2 = 1), if_pos hm, strData]
        simp [List.append_assoc]
      · rw [if_neg (by omega : ¬ (n : ℤ) % 2 = 1), if_neg hm, strData]
        simp [List.append_assoc]

theorem dtbLoop_nil (n : ℕ) : dtbLoop (n : ℤ) "" = ⟨binDigits n⟩ := by
  rw [dtbLoop_ofNat]
  simp

theorem binDigits_foldl (n : ℕ) :
    ∀ a : ℕ, (binDigits n).foldl (fun x c => 2 * x + bitVal c) a =
      a * 2 ^ (binDigits n).length + n := by
  induction n using Nat.strong_induction_on with
  | _ n ih =>
    intro a
    rw [binDigits]
    by_cases h : n = 0
    · simp [h]
    · rw [if_neg h]
      rw [List.foldl_append, List.length_append]
      rw [ih (n / 2) (by omega)]
      have hv : bitVal (if n % 2 = 1 then '1' else '0') = n % 2 := by
        by_cases hm : n % 2 = 1
        · rw [if_pos hm, hm]
          rfl
        · rw [if_neg hm]
          have : n % 2 = 0 := by omega
          rw [this]
          rfl
      simp only [List.foldl_cons, List.foldl_nil, List.length_singleton, hv]
      have hp : 2 ^ ((binDigits (n / 2)).length + 1) =
          2 * 2 ^ (binDigits (n / 2)).length := by ring
      rw [hp]
      have hr : a * (2 * 2 ^ (binDigits (n / 2)).length) =
          2 * (a * 2 ^ (binDigits (n / 2)).length) := by ring
      rw [hr]
      generalize a * 2 ^ (binDigits (n / 2)).length = m
      omega

theorem binDigits_all (n : ℕ) : (binDigits n).all isBit = true := by
  induction n using Nat.strong_induction_on with
  | _ n ih =>
    rw [binDigits]
    by_cases h : n = 0
    · simp [h]
    · rw [if_neg h]
      rw [List.all_append]
      rw [ih (n / 2) (by omega)]
      by_cases hm : n % 2 = 1 <;> simp [hm, isBit]

theorem binDigits_lt (n : ℕ) : n < 2 ^ (binDigits n).length := by
  induction n using Nat.strong_induction_on with
  | _ n ih =>
    rw [binDigits]
    by_cases h : n = 0
    · simp [h]
    · rw [if_neg h]
      rw [List.length_append, List.length_singleton]
      have := ih (n / 2) (by omega)
      have hp : 2 ^ ((binDigits (n / 2)).length + 1) =
          2 * 2 ^ (binDigits (n / 2)).length := by ring
      rw [hp]
      generalize 2 ^ (binDigits (n / 2)).length = k at *
      omega

theorem binDigits_length_le (n : ℕ) :
    ∀ k : ℕ, n < 2 ^ k → (binDigits n).length ≤ k := by
  induction n using Nat.strong_induction_on with
  | _ n ih =>
    intro k hk
    rw [binDigits]
    by_cases h : n = 0
    · simp [h]
    · rw [if_neg h]
      rw [List.length_append, List.length_singleton]
      have hk1 : k ≠ 0 := by
        intro h0
        rw [h0] at hk
        omega
      have hd : n / 2 < 2 ^ (k - 1) := by
        have hp : 2 ^ k = 2 * 2 ^ (k - 1) := by
          have hk2 : k = (k - 1) + 1 := by omega
          conv_lhs => rw [hk2]
          rw [pow_succ]
          ring
        rw [hp] at hk
        omega
      have := ih (n / 2) (by omega) (k - 1) hd
      omega

theorem binDigits_pos (n : ℕ) (h : 0 < n) : ∃ t, binDigits n = '1' :: t := by
  induction n using Nat.strong_induction_on with
  | _ n ih =>
    rw [binDigits, if_neg (by omega : ¬ n = 0)]
    by_cases h2 : n / 2 = 0
    · have h1 : n = 1 := by omega
      subst h1
      exact ⟨[], by simp [binDigits]⟩
    · obtain ⟨t, ht⟩ := ih (n / 2) (by omega) (by omega)
      rw [ht]
      exact ⟨t ++ [if n % 2 = 1 then '1' else '0'], rfl⟩

theorem foldl_replicate_zero (k : ℕ) :
    (List.replicate k '0').foldl (fun x c => 2 * x + bitVal c) 0 = 0 := by
  induction k with
  | zero => rfl
  | succ m ih =>
    rw [List.replicate_succ, List.foldl_cons]
    simpa using ih

theorem strLen (l : List Char) : (String.mk l).length = l.length := rfl

theorem binToNat_mk (l : List Char) :
    binToNat ⟨l⟩ = l.foldl (fun a c => 2 * a + bitVal c) 0 := rfl

/-! ### Claim C4 -/

/-- C4: for every non-negative integer `n`, `dec_to_bin n 16` returns the
minimal unsigned binary representation of `n` left-padded with zero bits to
exactly 16 characters when that representation fits in 16 bits (the output is
a bit string of length exactly 16 whose base-2 value is `n`), and returns the
oversized representation unchanged — the raw loop output, longer than 16 and
with no leading zero, hence untruncated — when it exceeds 16 bits. -/
theorem c4_numeric_to_binary (n : ℕ) :
    ((dec_to_bin (n : ℤ) 16).data.all isBit = true ∧
      binToNat (dec_to_bin (n : ℤ) 16) = n) ∧
    (n < 2 ^ 16 → (dec_to_bin (n : ℤ) 16).length = 16) ∧
    (2 ^ 16 ≤ n →
      dec_to_bin (n : ℤ) 16 = dtbLoop (n : ℤ) "" ∧
      16 < (dtbLoop (n : ℤ) "").length ∧
      (dtbLoop (n : ℤ) "").data.head? = some '1') := by
  have hd := dtbLoop_nil n
  have hfold := binDigits_foldl n 0
  have hlt := binDigits_lt n
  simp only [dec_to_bin, hd, strLen]
  by_cases hL : (binDigits n).length < 16
  · rw [if_pos hL]
    refine ⟨⟨?_, ?_⟩, ?_, ?_⟩
    · simp only [List.all_append]
      rw [binDigits_all]
      simp [isBit]
    · rw [binToNat_mk, List.foldl_append, foldl_replicate_zero, hfold]
      simp
    · intro _
      rw [strLen, List.length_append, List.length_replicate]
      omega
    · intro h16
      exfalso
      have h2 : 2 ^ (binDigits n).length ≤ 2 ^ 16 :=
        Nat.pow_le_pow_right (by omega) (by omega)
      omega
  · rw [if_neg hL]
    refine ⟨⟨?_, ?_⟩, ?_, ?_⟩
    · exact binDigits_all n
    · rw [binToNat_mk, hfold]
      simp
    · intro h16
      have := binDigits_length_le n 16 h16
      rw [strLen]
      omega
    · intro h16
      have hgt : 16 < (binDigits n).length := by
        by_contra hc
        have h2 : 2 ^ (binDigits n).length ≤ 2 ^ 16 :=
          Nat.pow_le_pow_right (by omega) (by omega)
        omega
      obtain ⟨t, ht⟩ := binDigits_pos n (by omega)
      refine ⟨rfl, hgt, ?_⟩
      rw [ht]
      rfl

/-- Concrete instances of `c4_numeric_to_binary`: the encoding of 5 is 16
bits long with value 5, and the encoding of 65536 is the untruncated
oversized raw loop output. -/
theorem c4_numeric_to_binary_witness :
    (dec_to_bin ((5 : ℕ) : ℤ) 16).length = 16 ∧
    binToNat (dec_to_bin ((5 : ℕ) : ℤ) 16) = 5 ∧
    dec_to_bin ((65536 : ℕ) : ℤ) 16 = dtbLoop ((65536 : ℕ) : ℤ) "" ∧
    16 < (dtbLoop ((65536 : ℕ) : ℤ) "").length := by
  refine ⟨(c4_numeric_to_binary 5).2.1 (by norm_num),
    (c4_numeric_to_binary 5).1.2,
    ((c4_numeric_to_binary 65536).2.2 (by norm_num)).1,
    ((c4_numeric_to_binary 65536).2.2 (by norm_num)).2.1⟩

/-! ### Claim C5 -/

/-- C5: for every operand value `n` presented to the CPU's address
resolution (`get_data`, whose identifier dispatch is `get_data_val`): a value
below 32768 resolves to itself as a literal constant; a value from 32768 to
65533 resolves to the data-memory slot at index `n - 32768`; the value 65534
resolves to the accumulator register; and any other value resolves to the
loop-counter register. -/
theorem c5_address_resolution (st : CPUState) (n : ℕ) :
    (∀ s : String, int2? s = some n →
      get_data st (.bits s) = get_data_val st (n : ℚ)) ∧
    (n < 32768 → get_data_val st (n : ℚ) = some (n : ℚ)) ∧
    (32768 ≤ n → n < 65534 →
      get_data_val st (n : ℚ) = st.data_memory.get? (n - 32768)) ∧
    (n = 65534 → get_data_val st (n : ℚ) = some st.ac) ∧
    (65534 < n → get_data_val st (n : ℚ) = some st.ecx) := by
  refine ⟨?_, ?_, ?_, ?_, ?_⟩
  · intro s hs
    simp [get_data, hs]
  · intro h
    rw [get_data_val, if_pos (by exact_mod_cast h)]
  · intro h1 h2
    rw [get_data_val,
      if_neg (by exact_mod_cast (by omega : ¬ (n : ℤ) < 32768)),
      if_pos (by exact_mod_cast h2), if_pos (by simp)]
    have hnum : ((n : ℚ)).num.toNat = n := by simp
    rw [hnum]
  · intro h
    subst h
    rw [get_data_val, if_neg (by norm_num), if_neg (by norm_num),
      if_pos (by norm_num)]
  · intro h
    have hc : (65534 : ℚ) < (n : ℚ) := by exact_mod_cast h
    rw [get_data_val, if_neg (by linarith), if_neg (by linarith),
      if_neg (ne_of_gt hc)]

/-- A concrete machine state used to instantiate the CPU-side claims. -/
def sampleSt : CPUState := ⟨[], [3, 4], 11, 12, 0, ""⟩

/-- Concrete instances of `c5_address_resolution` on `sampleSt`: a constant,
a variable slot, the accumulator code and the loop-counter code. -/
theorem c5_address_resolution_witness :
    get_data sampleSt (.bits "0000000000000111") = some ((7 : ℕ) : ℚ) ∧
    get_data_val sampleSt ((32769 : ℕ) : ℚ) = some 4 ∧
    get_data_val sampleSt ((65534 : ℕ) : ℚ) = some 11 ∧
    get_data_val sampleSt ((65535 : ℕ) : ℚ) = some 12 := by
  refine ⟨((c5_address_resolution sampleSt 7).1 _ (by decide)).trans
      ((c5_address_resolution sampleSt 7).2.1 (by omega)), ?_, ?_, ?_⟩
  · exact ((c5_address_resolution sampleSt 32769).2.2.1 (by omega)
      (by omega)).trans (by decide)
  · exact ((c5_address_resolution sampleSt 65534).2.2.2.1 rfl).trans rfl
  · exact ((c5_address_resolution sampleSt 65535).2.2.2.2 (by omega)).trans rfl

/-! ### Lemmas: the operator routines do not touch the program counter -/

theorem mov_pc (st : CPUState) (o1 : String) (o2 : Operand) (s' : CPUState)
    (h : mov st o1 o2 = some s') : s'.pc = st.pc := by
  simp only [mov] at h
  repeat' split at h
  all_goals cases h
  all_goals rfl

theorem add_pc (st : CPUState) (o1 o2 : String) (s' : CPUState)
    (h : add st o1 o2 = some s') : s'.pc = st.pc := by
  simp only [add] at h
  repeat' split at h
  all_goals first
    | cases h
    | exact mov_pc _ _ _ _ h

theorem sub_pc (st : CPUState) (o1 o2 : String) (s' : CPUState)
    (h : sub st o1 o2 = some s') : s'.pc = st.pc := by
  simp only [sub] at h
  repeat' split at h
  all_goals first
    | cases h
    | exact mov_pc _ _ _ _ h

theorem mul_pc (st : CPUState) (o1 o2 : String) (s' : CPUState)
    (h : mul st o1 o2 = some s') : s'.pc = st.pc := by
  simp only [mul] at h
  repeat' split at h
  all_goals first
    | cases h
    | exact mov_pc _ _ _ _ h

theorem div_pc (st : CPUState) (o1 o2 : String) (s' : CPUState)
    (h : div st o1 o2 = some s') : s'.pc = st.pc := by
  simp only [div] at h
  repeat' split at h
  all_goals first
    | cases h
    | exact mov_pc _ _ _ _ h

/-! ### Claim C2 -/

/-- C2: for every executed instruction, if the opcode field is one of the
five move/arithmetic codes then the program counter advances by exactly one
afterward; for any other opcode field (the loop-exit code 0101 and every
unassigned pattern all take this same default branch) the program counter is
set to the instruction's encoded target when the loop counter is strictly
positive, and falls through by advancing one when the loop counter is zero or
negative. -/
theorem c2_program_counter (st : CPUState) :
    (∀ st' : CPUState,
      (⟨st.ir.data.take 4⟩ : String) = "0000" ∨
      (⟨st.ir.data.take 4⟩ : String) = "0001" ∨
      (⟨st.ir.data.take 4⟩ : String) = "0010" ∨
      (⟨st.ir.data.take 4⟩ : String) = "0011" ∨
      (⟨st.ir.data.take 4⟩ : String) = "0100" →
      execute st = some st' → st'.pc = st.pc + 1) ∧
    ((⟨st.ir.data.take 4⟩ : String) ≠ "0000" →
     (⟨st.ir.data.take 4⟩ : String) ≠ "0001" →
     (⟨st.ir.data.take 4⟩ : String) ≠ "0010" →
     (⟨st.ir.data.take 4⟩ : String) ≠ "0011" →
     (⟨st.ir.data.take 4⟩ : String) ≠ "0100" →
      (0 < st.ecx → ∀ t : ℕ,
        int2? ⟨((st.ir.data.drop 4).take 16 : List Char)⟩ = some t →
        execute st = some { st with pc := t }) ∧
      (st.ecx ≤ 0 → execute st = some { st with pc := st.pc + 1 })) := by
  constructor
  · intro st' hop hex
    simp only [execute] at hex
    rcases hop with h | h | h | h | h
    · rw [h, if_pos rfl] at hex
      split at hex
      · cases hex
      · next s hs =>
          injection hex with hex
          subst hex
          simp [mov_pc _ _ _ _ hs]
    · rw [h, if_neg (by decide), if_pos rfl] at hex
      split at hex
      · cases hex
      · next s hs =>
          injection hex with hex
          subst hex
          simp [add_pc _ _ _ _ hs]
    · rw [h, if_neg (by decide), if_neg (by decide), if_pos rfl] at hex
      split at hex
      · cases hex
      · next s hs =>
          injection hex with hex
          subst hex
          simp [sub_pc _ _ _ _ hs]
    · rw [h, if_neg (by decide), if_neg (by decide), if_neg (by decide),
        if_pos rfl] at hex
      split at hex
      · cases hex
      · next s hs =>
          injection hex with hex
          subst hex
          simp [mul_pc _ _ _ _ hs]
    · rw [h, if_neg (by decide), if_neg (by decide), if_neg (by decide),
        if_neg (by decide), if_pos rfl] at hex
      split at hex
      · cases hex
      · next s hs =>
          injection hex with hex
          subst hex
          simp [div_pc _ _ _ _ hs]
  · intro h0 h1 h2 h3 h4
    constructor
    · intro hecx t ht
      simp only [execute]
      rw [if_neg h0, if_neg h1, if_neg h2, if_neg h3, if_neg h4, if_pos hecx]
      simp [jump, ht]
    · intro hecx
      simp only [execute]
      rw [if_neg h0, if_neg h1, if_neg h2, if_neg h3, if_neg h4,
        if_neg (not_lt.mpr hecx)]

/-- A concrete state about to execute a MOV into the accumulator. -/
def stMovAc : CPUState :=
  ⟨[], [], 0, 5, 7, "000011111111111111100000000000000111"⟩

/-- The state `stMovAc` one executed instruction later. -/
def stMovAcRes : CPUState :=
  ⟨[], [], 7, 5, 8, "000011111111111111100000000000000111"⟩

/-- A concrete state about to take a JMP with a positive loop counter. -/
def stJmpPos : CPUState :=
  ⟨[], [2], 9, 1, 7, "010100000000000000110000000000000000"⟩

/-- Concrete instance of `c2_program_counter`: a move advances the program
counter by one, a jump with positive loop counter redirects it to the encoded
target 3, and a jump with loop counter zero advances by one. -/
theorem c2_program_counter_witness :
    (execute stMovAc = some stMovAcRes ∧ stMovAcRes.pc = stMovAc.pc + 1) ∧
    execute stJmpPos = some { stJmpPos with pc := 3 } ∧
    execute { stJmpPos with ecx := 0 } =
      some { stJmpPos with ecx := 0, pc := stJmpPos.pc + 1 } := by
  refine ⟨⟨by decide, (c2_program_counter stMovAc).1 stMovAcRes
      (Or.inl (by decide)) (by decide)⟩, ?_, ?_⟩
  · exact ((c2_program_counter stJmpPos).2 (by decide) (by decide) (by decide)
      (by decide) (by decide)).1 (by norm_num [stJmpPos]) 3 (by decide)
  · exact ((c2_program_counter { stJmpPos with ecx := 0 }).2 (by decide)
      (by decide) (by decide) (by decide) (by decide)).2 (by norm_num)

/-! ### Claim C10 -/

/-- C10: executing a loop-exit instruction (opcode field 0101) changes no
CPU state other than the program counter (and the instruction register,
which `execute` leaves untouched as well): whether the jump is taken or not,
the accumulator, the loop counter and every data-memory slot are
unchanged. -/
theorem c10_loop_exit_frame (st st' : CPUState)
    (hop : (⟨st.ir.data.take 4⟩ : String) = "0101")
    (h : execute st = some st') :
    st'.ac = st.ac ∧ st'.ecx = st.ecx ∧ st'.data_memory = st.data_memory := by
  simp only [execute] at h
  rw [hop, if_neg (by decide), if_neg (by decide), if_neg (by decide),
    if_neg (by decide), if_neg (by decide)] at h
  split at h
  · simp only [jump] at h
    split at h
    · cases h
    · injection h with h
      subst h
      exact ⟨rfl, rfl, rfl⟩
  · injection h with h
    subst h
    exact ⟨rfl, rfl, rfl⟩

/-- Concrete instance of `c10_loop_exit_frame`: the taken jump of
`stJmpPos` leaves accumulator, loop counter and data memory unchanged. -/
theorem c10_loop_exit_frame_witness :
    execute stJmpPos = some { stJmpPos with pc := 3 } ∧
    ({ stJmpPos with pc := 3 } : CPUState).ac = stJmpPos.ac ∧
    ({ stJmpPos with pc := 3 } : CPUState).ecx = stJmpPos.ecx ∧
    ({ stJmpPos with pc := 3 } : CPUState).data_memory =
      stJmpPos.data_memory := by
  refine ⟨by decide, c10_loop_exit_frame stJmpPos { stJmpPos with pc := 3 }
    (by decide) (by decide)⟩

/-! ### Claim C1 -/

theorem get_data_bits_const (st : CPUState) (s1 : String) (a : ℕ)
    (h : int2? s1 = some a) (ha : a < 32768) :
    get_data st (.bits s1) = some ((a : ℕ) : ℚ) := by
  have hq : ((a : ℕ) : ℚ) < 32768 := by exact_mod_cast ha
  simp [get_data, h, get_data_val, hq]

/-- A concrete state refuting the literal reading of C1: data memory `[7]`
and accumulator 5. -/
def stC1 : CPUState := ⟨[], [7], 5, 0, 0, ""⟩

/-- Refutation of C1 as stated: at `stC1`, an ADD whose two operands both
resolve to the constant 32767 does not write 32767 + 32767 = 65534 to the
destination; the computed sum is passed back through address resolution,
65534 selects the accumulator, and the value actually written is the
accumulator's content 5. -/
theorem c1_counterexample :
    int2? "0111111111111111" = some 32767 ∧
    add stC1 "0111111111111111" "0111111111111111" =
      some { stC1 with data_memory := [5] } ∧
    ((5 : ℚ) ≠ (32767 : ℚ) + (32767 : ℚ)) := by
  refine ⟨by decide, ?_, by norm_num⟩
  have g : get_data stC1 (.bits "0111111111111111") =
      some ((32767 : ℕ) : ℚ) := by decide
  have hsum : ((32767 : ℕ) : ℚ) + ((32767 : ℕ) : ℚ) = 65534 := by norm_num
  simp only [add, g, hsum]
  decide

/-- C1 (amended): every executed add, subtract, multiply or divide whose two
operands resolve to constants `a` and `b` performs exactly a move to the same
destination whose source value is `a + b`, `a - b`, `a * b`, or the integer
floor quotient `a / b` respectively (division is the Python 2 `/` on the
integer machine values, and only when `b` is nonzero; a zero divisor is a
fatal division error); because the move re-resolves its source value through
address resolution, the value the move stores is the computed result itself
exactly when that result lies below 32768. -/
theorem c1_arithmetic_as_move (st : CPUState) (s1 s2 : String) (a b : ℕ)
    (h1 : int2? s1 = some a) (h2 : int2? s2 = some b)
    (ha : a < 32768) (hb : b < 32768) :
    add st s1 s2 = mov st s1 (.num (((a : ℕ) : ℚ) + ((b : ℕ) : ℚ))) ∧
    sub st s1 s2 = mov st s1 (.num (((a : ℕ) : ℚ) - ((b : ℕ) : ℚ))) ∧
    mul st s1 s2 = mov st s1 (.num (((a : ℕ) : ℚ) * ((b : ℕ) : ℚ))) ∧
    (b ≠ 0 → div st s1 s2 = mov st s1 (.num (((a / b : ℕ) : ℚ)))) ∧
    (b = 0 → div st s1 s2 = none) ∧
    (∀ v : ℚ, v < 32768 → get_data st (.num v) = some v) := by
  have g1 := get_data_bits_const st s1 a h1 ha
  have g2 := get_data_bits_const st s2 b h2 hb
  refine ⟨?_, ?_, ?_, ?_, ?_, ?_⟩
  · simp only [add, g1, g2]
  · simp only [sub, g1, g2]
  · simp only [mul, g1, g2]
  · intro hb0
    have hbq : ((b : ℕ) : ℚ) ≠ 0 := by exact_mod_cast hb0
    simp only [div, g1, g2]
    rw [if_neg hbq,
      if_pos (by simp : ((a : ℕ) : ℚ).den = 1 ∧ ((b : ℕ) : ℚ).den = 1)]
    have hnum : Int.fdiv ((a : ℕ) : ℚ).num ((b : ℕ) : ℚ).num =
        ((a / b : ℕ) : ℤ) := by
      simp only [Rat.num_natCast]
      rw [Int.fdiv_eq_ediv _ (by exact_mod_cast Nat.zero_le b)]
      exact_mod_cast rfl
    rw [hnum]
    norm_cast
  · intro hb0
    subst hb0
    simp only [div, g1, g2]
    norm_num
  · intro v hv
    simp [get_data, get_data_val, hv]

/-- Concrete instance of `c1_arithmetic_as_move`: with constant operands 5
and 3, ADD is exactly a move of the source value 5 + 3, and a source value
below 32768 resolves to itself. -/
theorem c1_arithmetic_as_move_witness :
    add sampleSt "0000000000000101" "0000000000000011" =
      mov sampleSt "0000000000000101"
        (.num (((5 : ℕ) : ℚ) + ((3 : ℕ) : ℚ))) ∧
    div sampleSt "0000000000000101" "0000000000000010" =
      mov sampleSt "0000000000000101" (.num (((5 / 2 : ℕ) : ℚ))) ∧
    get_data sampleSt (.num (((5 : ℕ) : ℚ) + ((3 : ℕ) : ℚ))) =
      some (((5 : ℕ) : ℚ) + ((3 : ℕ) : ℚ)) := by
  refine ⟨(c1_arithmetic_as_move sampleSt _ _ 5 3 (by decide) (by decide)
      (by decide) (by decide)).1, ?_, ?_⟩
  · exact (c1_arithmetic_as_move sampleSt "0000000000000101"
      "0000000000000010" 5 2 (by decide) (by decide) (by decide)
      (by decide)).2.2.2.1 (by decide)
  · exact (c1_arithmetic_as_move sampleSt "0000000000000101" "0000000000000011"
      5 3 (by decide) (by decide) (by decide) (by decide)).2.2.2.2.2
      _ (by norm_num)

/-! ### Claim C3 -/

/-- A CPU state with empty data memory. -/
def stEmpty : CPUState := ⟨[], [], 0, 0, 0, ""⟩

/-- C3 evaluated at the failing input: a move whose destination 32770
computes slot index 2, strictly greater than the data-memory length 0, does
not raise an out-of-bounds memory error — the `length < index + 1` test in
`CPU.mov` is satisfied by every index at or beyond the length, so the value
is silently appended at slot 0 instead. -/
theorem c3_failing_input :
    int2? "1000000000000010" = some 32770 ∧
    stEmpty.data_memory.length = 0 ∧
    mov stEmpty "1000000000000010" (.bits "0000000000000101") =
      some { stEmpty with data_memory := [5] } := by
  refine ⟨by decide, by decide, by decide⟩

/-! ### Claim C9 -/

theorem pySetItem_neg (l : List ℚ) (i : ℤ) (v : ℚ) (hi : i < 0) :
    pySetItem l i v =
      if 0 ≤ i + (l.length : ℤ) then some (l.set (i + (l.length : ℤ)).toNat v)
      else none := by
  simp only [pySetItem]
  rw [if_neg (by omega)]

/-- A CPU state with a single data-memory slot. -/
def stOne : CPUState := ⟨[], [0], 0, 0, 0, ""⟩

/-- Refutation of C9 as stated: a move whose destination is the
constant-range value 0 on an empty data memory raises an index error (the
negative slot index 0 - 32768 = -32768 stays out of range after Python's
negative-index wrap), so the write is not performed error-free. -/
theorem c9_counterexample :
    int2? "0000000000000000" = some 0 ∧
    mov stEmpty "0000000000000000" (.bits "0000000000000101") = none := by
  refine ⟨by decide, by decide⟩

/-- C9 (amended): for every move instruction, a destination operand value
below 65534 — including constant-range values 0 through 32767 — is treated
as a data-memory slot at index `value - 32768`; for a constant-range
destination that index is negative, so the append branch is never taken and
the assignment uses the negative index, which (per Python list assignment)
stores at slot `length - (32768 - value)` when data memory holds at least
`32768 - value` slots and raises an index error otherwise. -/
theorem c9_constant_destination (st : CPUState) (s1 : String) (o2 : Operand)
    (ident : ℕ) (v : ℚ) (h1 : int2? s1 = some ident) (hid : ident < 32768)
    (hv : get_data st o2 = some v) :
    mov st s1 o2 =
      if 32768 - ident ≤ st.data_memory.length then
        some { st with data_memory :=
          st.data_memory.set (st.data_memory.length - (32768 - ident)) v }
      else none := by
  simp only [mov, h1, hv]
  rw [if_pos (by omega : ident < 65534)]
  rw [if_neg (show ¬ (st.data_memory.length : ℤ) <
      (ident : ℤ) - 32768 + 1 by omega)]
  rw [pySetItem_neg _ _ _ (by omega)]
  by_cases hc : 32768 - ident ≤ st.data_memory.length
  · rw [if_pos (by omega : (0 : ℤ) ≤
      (ident : ℤ) - 32768 + (st.data_memory.length : ℤ))]
    rw [if_pos hc]
    have ht : ((ident : ℤ) - 32768 + (st.data_memory.length : ℤ)).toNat =
        st.data_memory.length - (32768 - ident) := by omega
    rw [ht]
  · rw [if_neg (by omega : ¬ (0 : ℤ) ≤
      (ident : ℤ) - 32768 + (st.data_memory.length : ℤ))]
    rw [if_neg hc]

/-- Concrete instance of `c9_constant_destination`: destination 32767 (slot
index -1) on a one-slot data memory wraps to slot 0 and overwrites it. -/
theorem c9_constant_destination_witness :
    mov stOne "0111111111111111" (.num 9) =
      some { stOne with data_memory := [9] } := by
  have h := c9_constant_destination stOne "0111111111111111" (.num 9)
    32767 9 (by decide) (by decide) (by decide)
  rw [h, if_pos (by decide)]
  decide

/-! ### Claim C6 -/

theorem lookup_append_self (vars : List (String × ℕ)) (v : String) (m : ℕ)
    (h : List.lookup v vars = none) :
    List.lookup v (vars ++ [(v, m)]) = some m := by
  induction vars with
  | nil => simp [List.lookup]
  | cons p rest ih =>
    obtain ⟨k, w⟩ := p
    by_cases hk : (v == k) = true
    · simp [List.lookup, hk] at h
    · simp only [List.cons_append, List.lookup, hk] at h ⊢
      exact ih h

theorem foldl_max_range' (n : ℕ) :
    ∀ s a : ℕ, List.foldl max a (List.range' s (n + 1)) = max a (s + n) := by
  induction n with
  | zero => intro s a; simp [List.range'_one]
  | succ m ih =>
    intro s a
    rw [List.range'_succ, List.foldl_cons, ih (s + 1) (max a s)]
    omega

/-- The symbol table produced by running `Compiler.variable` over a given
sequence of encountered names, starting from the empty table. -/
def processNames (names : List String) : List (String × ℕ) :=
  names.foldl (fun vs v => (compVariable vs v).1) []

theorem processNames_aux (names : List String) :
    ∀ vars : List (String × ℕ),
      vars.map Prod.snd = List.range' 32768 vars.length →
      (names.foldl (fun vs v => (compVariable vs v).1) vars).map Prod.snd =
        List.range' 32768
          (names.foldl (fun vs v => (compVariable vs v).1) vars).length := by
  induction names with
  | nil => intro vars h; simpa using h
  | cons v rest ih =>
    intro vars h
    simp only [List.foldl_cons]
    apply ih
    by_cases h0 : vars.length = 0
    · rw [List.length_eq_zero.mp h0]
      simp only [compVariable]
      norm_num [List.range'_one]
    · by_cases hl : (List.lookup v vars).isNone
      · simp only [compVariable, if_neg h0, if_pos hl]
        have hk : vars.length = (vars.length - 1) + 1 := by omega
        have hm : maxVals vars = 32768 + (vars.length - 1) := by
          rw [maxVals, h]
          conv_lhs => rw [hk]
          rw [foldl_max_range']
          omega
        rw [List.map_append, h, List.map_singleton, hm]
        simp only [List.length_append, List.length_singleton]
        rw [List.range'_concat]
        have he : 32768 + (vars.length - 1) + 1 = 32768 + 1 * vars.length := by
          omega
        rw [he]
      · simp only [compVariable, if_neg h0, if_neg hl]
        exact h

/-- C6: during encoding, the first variable name encountered is assigned
storage address 32768 (2 ^ 15); a name already in the symbol table keeps its
assigned address; each subsequently encountered new name is assigned
(maximum address assigned so far) + 1; and the table obtained from any
encounter sequence of names lists its addresses as the consecutive block
starting at 32768 in insertion order — the assignment determined by the name
sequence alone, hence stable and deterministic across repeated encodings of
the same source. -/
theorem c6_variable_addressing :
    (∀ v : String, compVariable [] v =
      ([(v, 32768)], dec_to_bin ((32768 : ℕ) : ℤ) 16)) ∧
    (∀ (vars : List (String × ℕ)) (v : String) (a : ℕ),
      List.lookup v vars = some a →
      compVariable vars v = (vars, dec_to_bin ((a : ℕ) : ℤ) 16)) ∧
    (∀ (vars : List (String × ℕ)) (v : String), vars ≠ [] →
      List.lookup v vars = none →
      compVariable vars v = (vars ++ [(v, maxVals vars + 1)],
        dec_to_bin ((maxVals vars + 1 : ℕ) : ℤ) 16)) ∧
    (∀ names : List String,
      (processNames names).map Prod.snd =
        List.range' 32768 (processNames names).length) := by
  refine ⟨?_, ?_, ?_, ?_⟩
  · intro v
    simp [compVariable, List.lookup]
  · intro vars v a hsome
    have hne : vars.length ≠ 0 := by
      intro h0
      rw [List.length_eq_zero.mp h0] at hsome
      simp [List.lookup] at hsome
    simp only [compVariable, if_neg hne, hsome, Option.isNone_some,
      Bool.false_eq_true, if_false, Option.getD_some]
  · intro vars v hne hnone
    have h0 : vars.length ≠ 0 := by
      intro h0
      exact hne (List.length_eq_zero.mp h0)
    simp only [compVariable, if_neg h0, hnone, Option.isNone_none, if_true,
      lookup_append_self vars v _ hnone, Option.getD_some]
  · intro names
    exact processNames_aux names [] (by simp)

/-- Concrete instance of `c6_variable_addressing`: the first name gets
32768, a repeated name keeps its address, a new name gets max + 1, and a
three-encounter sequence yields the consecutive addresses 32768, 32769. -/
theorem c6_variable_addressing_witness :
    compVariable [] "x" = ([( "x", 32768)], dec_to_bin ((32768 : ℕ) : ℤ) 16) ∧
    compVariable [( "x", 32768)] "x" =
      ([( "x", 32768)], dec_to_bin ((32768 : ℕ) : ℤ) 16) ∧
    compVariable [( "x", 32768)] "y" =
      ([( "x", 32768), ( "y", 32769)], dec_to_bin ((32769 : ℕ) : ℤ) 16) ∧
    (processNames [ "x", "y", "x"]).map Prod.snd = [32768, 32769] := by
  refine ⟨(c6_variable_addressing).1 "x",
    (c6_variable_addressing).2.1 _ "x" 32768 (by decide), ?_, ?_⟩
  · have h := (c6_variable_addressing).2.2.1 [( "x", 32768)] "y"
      (by decide) (by decide)
    have hmx : maxVals [( "x", 32768)] + 1 = 32769 := by decide
    rw [h, hmx]
    simp
  · have h := (c6_variable_addressing).2.2.2 [ "x", "y", "x"]
    rw [h]
    decide

/-! ### Claim C7 -/

/-- C7: during encoding, a label-marker line records the current
emitted-instruction count as the active loop target and emits no instruction
(the `label` field is simply overwritten, so a second marker silently
replaces the first), and each loop-exit (JMP) line emits the loop-exit
opcode 0101 followed by the 16-bit binary of the most recently recorded
label and the zero-filled 16-bit second operand `dec_to_bin 0 16 =
"0000000000000000"`. -/
theorem c7_label_and_loop_exit (st : CompState) :
    (∀ (op : String) (rest : List String), startsWithLabel op = true →
      compLine st (op :: rest) = some { st with label := st.instr_count }) ∧
    (∀ rest : List String, compLine st ( "JMP" :: rest) =
      some { st with
        bytecode := st.bytecode ++ "0101" ++ dec_to_bin (st.label : ℤ) 16 ++
          dec_to_bin 0 16 ++ "
",
        instr_count := st.instr_count + 1 }) ∧
    dec_to_bin 0 16 = "0000000000000000" := by
  refine ⟨?_, ?_, ?_⟩
  · intro op rest h
    simp only [compLine]
    rw [if_pos h]
  · intro rest
    simp only [compLine]
    rfl
  · have h0 : dtbLoop 0 "" = "" := by
      rw [dtbLoop]
      norm_num
    simp only [dec_to_bin, h0]
    decide

/-- A concrete encoder state: one emitted instruction counted three, an
active label 1 and one known variable. -/
def cs7 : CompState := ⟨ "B", 3, 1, [( "x", 32768)]⟩

/-- Concrete instance of `c7_label_and_loop_exit` at `cs7`: a label line
records the instruction count 3 and emits nothing; a JMP line emits opcode,
the recorded label and the zero-filled operand. -/
theorem c7_label_and_loop_exit_witness :
    compLine cs7 [ "label1"] = some { cs7 with label := cs7.instr_count } ∧
    compLine cs7 [ "JMP"] = some { cs7 with
      bytecode := cs7.bytecode ++ "0101" ++ dec_to_bin (cs7.label : ℤ) 16 ++
        dec_to_bin 0 16 ++ "
",
      instr_count := cs7.instr_count + 1 } :=
  ⟨(c7_label_and_loop_exit cs7).1 "label1" [] (by decide),
    (c7_label_and_loop_exit cs7).2.1 []⟩

/-! ### Claim C8 -/

/-- The empty initial encoder state. -/
def cs0 : CompState := ⟨ "", 0, 0, []⟩

/-- Refutation of C8 as stated: the operand token `!!` is not a valid
lexeme (`determine_type` rejects it), not a valid integer (`pyInt?` rejects
it) and not a known register, yet encoding the line `MOV x !!` does not
fail — `Compiler.variable` unconditionally accepts the token as a fresh
variable name, assigns it address 32769, and an instruction is emitted. -/
theorem c8_counterexample :
    determine_type "!!" = none ∧
    pyInt? "!!" = none ∧
    List.lookup "!!" registers = none ∧
    compLine cs0 [ "MOV", "x", "!!"] =
      some ⟨ "" ++ "0000" ++ dec_to_bin ((32768 : ℕ) : ℤ) 16 ++
        dec_to_bin ((32769 : ℕ) : ℤ) 16 ++ "
", 0 + 1, 0,
        [( "x", 32768), ( "!!", 32769)]⟩ :=
  ⟨by decide, by decide, by decide, rfl⟩

/-- C8 (amended): encoding a line fails with a fatal error when the
operator mnemonic is not in the recognized set, and when a required operand
token is missing; but an operand token that is neither a valid integer nor
a known register mnemonic is never rejected — it is unconditionally treated
as a new or existing variable name, so every line with a recognized operator
and two operand tokens encodes successfully. -/
theorem c8_encoding_failures (st : CompState) :
    (∀ (op : String) (rest : List String), startsWithLabel op = false →
      op ≠ "JMP" → List.lookup op operators = none →
      compLine st (op :: rest) = none) ∧
    (∀ op opc : String, startsWithLabel op = false →
      op ≠ "JMP" → List.lookup op operators = some opc →
      compLine st [op] = none ∧ ∀ o1 : String, compLine st [op, o1] = none) ∧
    (∀ (op opc o1 o2 : String) (rest2 : List String),
      startsWithLabel op = false → List.lookup op operators = some opc →
      ∃ st' : CompState, compLine st (op :: o1 :: o2 :: rest2) = some st') := by
  refine ⟨?_, ?_, ?_⟩
  · intro op rest hsw hjmp hlk
    simp only [compLine]
    rw [if_neg (by simp [hsw]), if_neg hjmp, hlk]
  · intro op opc hsw hjmp hlk
    constructor
    · simp only [compLine]
      rw [if_neg (by simp [hsw]), if_neg hjmp, hlk]
    · intro o1
      simp only [compLine]
      rw [if_neg (by simp [hsw]), if_neg hjmp, hlk]
  · intro op opc o1 o2 rest2 hsw hlk
    by_cases hjmp : op = "JMP"
    · subst hjmp
      exact ⟨_, rfl⟩
    · simp only [compLine]
      rw [if_neg (by simp [hsw]), if_neg hjmp, hlk]
      exact ⟨_, rfl⟩

/-- Concrete instances of `c8_encoding_failures`: an unknown operator
aborts, a missing operand aborts, and a line whose second operand is the
invalid token `!!` still encodes. -/
theorem c8_encoding_failures_witness :
    compLine cs0 [ "BAD", "x", "1"] = none ∧
    compLine cs0 [ "MOV"] = none ∧
    ∃ st' : CompState, compLine cs0 [ "ADD", "x", "!!"] = some st' :=
  ⟨(c8_encoding_failures cs0).1 "BAD" [ "x", "1"] (by decide) (by decide)
      (by decide),
    ((c8_encoding_failures cs0).2.1 "MOV" "0000" (by decide) (by decide)
      (by decide)).1,
    (c8_encoding_failures cs0).2.2 "ADD" "0001" "x" "!!" [] (by decide)
      (by decide)⟩

end CPUsim
